import Mathlib

/-!
Shallow embedding of the Xilinx TPG DRM driver core
(`drivers/gpu/drm/xlnx/xlnx_tpg.c`, `xlnx_vtc_list.c`, `xlnx_vtc.h`):
the VTC registry, the bus-format to color-format table, and the CRTC
check / enable / disable / irq paths, with MMIO writes and capability
calls recorded as an event trace.
-/

/-! ## Error codes (linux/errno.h) -/

def EINVAL : Int := 22
def EFAULT : Int := 14
def EPROBE_DEFER : Int := 517

/-! ## Media bus formats (linux/media-bus-format.h) -/

def MEDIA_BUS_FMT_RGB666_1X18 : Nat := 0x1009
def MEDIA_BUS_FMT_RBG888_1X24 : Nat := 0x100e
def MEDIA_BUS_FMT_UYVY8_1X16 : Nat := 0x2006
def MEDIA_BUS_FMT_VUY8_1X24 : Nat := 0x201a
def MEDIA_BUS_FMT_UYVY10_1X20 : Nat := 0x2018

/-! ## TPG register map and bits -/

def XLNX_TPG_CONTROL : Nat := 0x0000
def XLNX_TPG_GLOBAL_IRQ_EN : Nat := 0x0004
def XLNX_TPG_IP_IRQ_EN : Nat := 0x0008
def XLNX_TPG_IP_IRQ_STATUS : Nat := 0x000C
def XLNX_TPG_ACTIVE_HEIGHT : Nat := 0x0010
def XLNX_TPG_ACTIVE_WIDTH : Nat := 0x0018
def XLNX_TPG_PATTERN_ID : Nat := 0x0020
def XLNX_TPG_COLOR_FORMAT : Nat := 0x0040

def XLNX_TPG_IP_IRQ_AP_DONE : Nat := 1

def XLNX_TPG_START : Nat := 1
def XLNX_TPG_AUTO_RESTART : Nat := 0x80

/-! ## enum xlnx_tpg_format -/

inductive XlnxTpgFormat where
  | XTPG_FMT_RGB
  | XTPG_FMT_YUV_444
  | XTPG_FMT_YUV_422
  | XTPG_FMT_YUV_420
  | XTPG_FMT_INVALID
deriving DecidableEq, Repr

/-- Numeric value of the C enum (XTPG_FMT_RGB = 0x0, then consecutive). -/
def XlnxTpgFormat.toNat : XlnxTpgFormat → Nat
  | .XTPG_FMT_RGB => 0
  | .XTPG_FMT_YUV_444 => 1
  | .XTPG_FMT_YUV_422 => 2
  | .XTPG_FMT_YUV_420 => 3
  | .XTPG_FMT_INVALID => 4

/-- The static `format_map` table inside `xlnx_tpg_bus_to_color_format`,
in source order. -/
def format_map : List (Nat × XlnxTpgFormat) :=
  [ (MEDIA_BUS_FMT_RGB666_1X18, .XTPG_FMT_RGB),
    (MEDIA_BUS_FMT_RBG888_1X24, .XTPG_FMT_RGB),
    (MEDIA_BUS_FMT_UYVY8_1X16, .XTPG_FMT_YUV_422),
    (MEDIA_BUS_FMT_VUY8_1X24, .XTPG_FMT_YUV_444),
    (MEDIA_BUS_FMT_UYVY10_1X20, .XTPG_FMT_YUV_422) ]

/-- `xlnx_tpg_bus_to_color_format`: linear scan of `format_map`, first
match wins, `XTPG_FMT_INVALID` if no entry matches. -/
def xlnx_tpg_bus_to_color_format (bus_format : Nat) : XlnxTpgFormat :=
  match format_map.find? (fun p => p.1 = bus_format) with
  | some p => p.2
  | none => .XTPG_FMT_INVALID

/-! ## VTC registry (xlnx_vtc_list.c)

`struct xlnx_vtc_iface` carries a pointer identity (`ptr`) and its
`of_node` device-tree node pointer (`none` models NULL); the callback
pointers are irrelevant to the registry and omitted here.  Node pointers
are `Option Nat` (`none` = NULL). -/

structure XlnxVtcIface where
  ptr : Nat
  of_node : Option Nat
deriving DecidableEq, Repr

/-- `struct xlnx_vtc_list`: ordered entries (list_add_tail appends) plus
the `initialized` lifecycle flag.  The mutex is modelled by the whole
operation being one atomic step. -/
structure XlnxVtcList where
  entries : List XlnxVtcIface
  inited : Bool
deriving DecidableEq, Repr

/-- `xlnx_vtc_list_init`: idempotent, always returns 0. -/
def xlnx_vtc_list_init (s : XlnxVtcList) : Int × XlnxVtcList :=
  if s.inited then (0, s) else (0, { entries := [], inited := true })

/-- `xlnx_vtc_list_fini`: drops the `initialized` flag if set. -/
def xlnx_vtc_list_fini (s : XlnxVtcList) : XlnxVtcList :=
  if s.inited then { s with inited := false } else s

/-- `xlnx_vtc_register`: -EINVAL on NULL vtc or NULL of_node, -EFAULT if
the list is not initialized, else append to the tail and return 0. -/
def xlnx_vtc_register (vtc : Option XlnxVtcIface) (s : XlnxVtcList) :
    Int × XlnxVtcList :=
  match vtc with
  | none => (-EINVAL, s)
  | some v =>
    if v.of_node = none then (-EINVAL, s)
    else if !s.inited then (-EFAULT, s)
    else (0, { s with entries := s.entries ++ [v] })

/-- `xlnx_vtc_unregister`: no-op on NULL vtc or uninitialized list, else
`list_del` of the entry (first occurrence removed). -/
def xlnx_vtc_unregister (vtc : Option XlnxVtcIface) (s : XlnxVtcList) :
    XlnxVtcList :=
  match vtc with
  | none => s
  | some v =>
    if !s.inited then s
    else { s with entries := s.entries.erase v }

/-- `xlnx_of_find_vtc`: `*vtc = NULL` on entry; -EPROBE_DEFER if the list
is uninitialized; otherwise scan entries in insertion order and return the
first one whose `of_node` pointer equals `np`, else -EPROBE_DEFER.  The
pair is (return code, value stored in `*vtc`). -/
def xlnx_of_find_vtc (np : Option Nat) (s : XlnxVtcList) :
    Int × Option XlnxVtcIface :=
  if !s.inited then (-EPROBE_DEFER, none)
  else
    match s.entries.find? (fun v => v.of_node = np) with
    | some v => (0, some v)
    | none => (-EPROBE_DEFER, none)

/-! ### Register/unregister sequences (for the registry claims) -/

inductive RegOp where
  | reg (v : XlnxVtcIface)
  | unreg (v : XlnxVtcIface)
deriving DecidableEq, Repr

/-- Run one registry operation, discarding the return code. -/
def runRegOp (s : XlnxVtcList) (op : RegOp) : XlnxVtcList :=
  match op with
  | .reg v => (xlnx_vtc_register (some v) s).2
  | .unreg v => xlnx_vtc_unregister (some v) s

/-- Run a sequence of registry operations. -/
def runRegOps (s : XlnxVtcList) (ops : List RegOp) : XlnxVtcList :=
  ops.foldl runRegOp s

/-- Registry state right after `xlnx_vtc_list_init` at module load. -/
def vtcListInit : XlnxVtcList := { entries := [], inited := true }

/-- Registry state before `xlnx_vtc_list_init` / after fini. -/
def vtcListUninit : XlnxVtcList := { entries := [], inited := false }

/-- Specification-side registered set: a plain set-like fold over the
operation sequence, independent of the registry's internals.  `R` is the
set of currently registered handles. -/
def specReg (R : List XlnxVtcIface) : List RegOp → List XlnxVtcIface
  | [] => R
  | .reg v :: ops => specReg (v :: R) ops
  | .unreg v :: ops => specReg (R.erase v) ops

/-- Well-formedness of an operation sequence relative to the currently
registered set `R`: every registered handle has a non-NULL identifier and
an identifier distinct from all live ones (the spec's "at most one live
handle per identifier" caller obligation). -/
def wfRegOps (R : List XlnxVtcIface) : List RegOp → Bool
  | [] => true
  | .reg v :: ops =>
    v.of_node ≠ none && R.all (fun u => u.of_node ≠ v.of_node) &&
      wfRegOps (v :: R) ops
  | .unreg v :: ops => wfRegOps (R.erase v) ops

/-! ## TPG pipeline model (xlnx_tpg.c)

Side effects — MMIO register writes, capability calls into the VTC, and
DRM vblank/event primitives — are recorded as an event trace in program
order.  Tokens (`Nat`) stand for `struct drm_pending_vblank_event`
pointers. -/

/-- `struct drm_display_mode`, restricted to the fields the driver reads
(`hdisplay`/`vdisplay` are u16 in the kernel struct). -/
structure DrmDisplayMode where
  hdisplay : Nat
  vdisplay : Nat
deriving DecidableEq, Repr

inductive TpgEv where
  /-- `xlnx_tpg_write(tpg, offset, val)` (writel, 32-bit). -/
  | write (offset : Nat) (val : Nat)
  /-- `xlnx_vtc_iface_set_timing(tpg->vtc, &vm)` with `vm` converted from
  `mode` by `drm_display_mode_to_videomode`. -/
  | vtcSetTiming (mode : DrmDisplayMode)
  /-- `xlnx_vtc_iface_enable(tpg->vtc)`. -/
  | vtcEnable
  /-- `xlnx_vtc_iface_disable(tpg->vtc)`. -/
  | vtcDisable
  /-- `drm_crtc_vblank_on(crtc)`. -/
  | vblankOn
  /-- `drm_crtc_vblank_off(crtc)`. -/
  | vblankOff
  /-- `drm_crtc_vblank_get(crtc)`. -/
  | vblankGet
  /-- `drm_crtc_vblank_put(crtc)`. -/
  | vblankPut
  /-- `drm_crtc_handle_vblank(crtc)`. -/
  | handleVblank
  /-- `drm_crtc_send_vblank_event(crtc, event)` for token `t`. -/
  | sendEvent (t : Nat)
  /-- `complete_all(event->base.completion)` for token `t`. -/
  | completeAll (t : Nat)
deriving DecidableEq, Repr

/-- `xlnx_tpg_write`: a 32-bit MMIO write event. -/
def xlnx_tpg_write (offset val : Nat) : TpgEv := .write offset (val % 2 ^ 32)

/-- `xlnx_tpg_set_dimensions(tpg, w, h)`: `w` and `h` are u16 parameters. -/
def xlnx_tpg_set_dimensions (w h : Nat) : List TpgEv :=
  [ xlnx_tpg_write XLNX_TPG_ACTIVE_WIDTH (w % 2 ^ 16),
    xlnx_tpg_write XLNX_TPG_ACTIVE_HEIGHT (h % 2 ^ 16) ]

/-- `xlnx_tpg_set_format(tpg, format)`. -/
def xlnx_tpg_set_format (format : XlnxTpgFormat) : List TpgEv :=
  [ xlnx_tpg_write XLNX_TPG_COLOR_FORMAT format.toNat ]

/-- `xlnx_tpg_start(tpg)`: write START | AUTO_RESTART to CONTROL. -/
def xlnx_tpg_start : List TpgEv :=
  [ xlnx_tpg_write XLNX_TPG_CONTROL (XLNX_TPG_START ||| XLNX_TPG_AUTO_RESTART) ]

/-- `xlnx_tpg_crtc_enable`: if a VTC was resolved at probe time, program
its timing from the adjusted mode and enable it; then program dimensions,
then the color format chosen at probe time, then start the generator. -/
def xlnx_tpg_crtc_enable (vtc : Option XlnxVtcIface) (mode : DrmDisplayMode)
    (color_format : XlnxTpgFormat) : List TpgEv :=
  (match vtc with
   | some _ => [TpgEv.vtcSetTiming mode, TpgEv.vtcEnable]
   | none => []) ++
  xlnx_tpg_set_dimensions mode.hdisplay mode.vdisplay ++
  xlnx_tpg_set_format color_format ++
  xlnx_tpg_start

/-- Driver-visible DRM event state: the driver's single pending slot
`tpg->drm->event` and the commit state's `crtc->state->event`. -/
structure TpgDrmState where
  drm_event : Option Nat
  crtc_state_event : Option Nat
deriving DecidableEq, Repr

/-- `xlnx_tpg_plane_atomic_update`: `drm_crtc_vblank_on`; then, if the
commit carries an event, take a vblank reference and move the event from
`crtc->state->event` into the pending slot `tpg->drm->event`. -/
def xlnx_tpg_plane_atomic_update (s : TpgDrmState) :
    TpgDrmState × List TpgEv :=
  match s.crtc_state_event with
  | some t =>
    ({ drm_event := some t, crtc_state_event := none },
     [TpgEv.vblankOn, TpgEv.vblankGet])
  | none => (s, [TpgEv.vblankOn])

/-- `xlnx_tpg_crtc_disable`: disable the VTC if present; if the commit
state carries an event, `complete_all` its completion and clear
`crtc->state->event`; then `drm_crtc_vblank_off`.  The pending slot
`tpg->drm->event` is not touched. -/
def xlnx_tpg_crtc_disable (vtc : Option XlnxVtcIface) (s : TpgDrmState) :
    TpgDrmState × List TpgEv :=
  let evs := match vtc with
             | some _ => [TpgEv.vtcDisable]
             | none => []
  match s.crtc_state_event with
  | some t =>
    ({ s with crtc_state_event := none },
     evs ++ [TpgEv.completeAll t, TpgEv.vblankOff])
  | none => (s, evs ++ [TpgEv.vblankOff])

/-- `xlnx_tpg_crtc_check`: nothing is checked when the CRTC is not being
enabled; otherwise run the framework primary-plane check (its result is
an input here), then reject with -EINVAL if the proposed
`output_bus_format` differs from the fixed probe-time one; finally the
framework's `drm_atomic_add_affected_planes` result is returned.  The
function performs no MMIO write and leaves the driver state untouched:
it returns the `TpgDrmState` unchanged and an empty trace. -/
def xlnx_tpg_crtc_check (tpg_output_bus_format : Nat) (s : TpgDrmState)
    (crtc_enable : Bool) (crtc_output_bus_format : Nat)
    (primary_plane_ret : Int) (add_planes_ret : Int) :
    Int × TpgDrmState × List TpgEv :=
  if crtc_enable then
    if primary_plane_ret ≠ 0 then (primary_plane_ret, s, [])
    else if tpg_output_bus_format ≠ crtc_output_bus_format then
      (-EINVAL, s, [])
    else (add_planes_ret, s, [])
  else (add_planes_ret, s, [])

/-- `xlnx_tpg_crtc_select_output_bus_format`: scan the candidate list and
return the fixed format on the first match, else 0. -/
def xlnx_tpg_crtc_select_output_bus_format (output_bus_format : Nat) :
    List Nat → Nat
  | [] => 0
  | f :: fs =>
    if f = output_bus_format then output_bus_format
    else xlnx_tpg_crtc_select_output_bus_format output_bus_format fs

/-- `xlnx_tpg_irq_handler`: read-and-clear IRQ status; if the AP_DONE bit
is not set, IRQ_NONE and no further action; otherwise handle vblank and,
under `event_lock`, take the pending slot and, if it held an event, send
it and drop the vblank reference.  Returns the new state, the trace and
whether the IRQ was handled (`true` = IRQ_HANDLED). -/
def xlnx_tpg_irq_handler (status : Nat) (s : TpgDrmState) :
    TpgDrmState × List TpgEv × Bool :=
  let evs0 := [xlnx_tpg_write XLNX_TPG_IP_IRQ_STATUS status]
  if status &&& XLNX_TPG_IP_IRQ_AP_DONE = 0 then (s, evs0, false)
  else
    match s.drm_event with
    | some t =>
      ({ s with drm_event := none },
       evs0 ++ [TpgEv.handleVblank, TpgEv.sendEvent t, TpgEv.vblankPut], true)
    | none => (s, evs0 ++ [TpgEv.handleVblank], true)

/-! ## Probe (xlnx_tpg_probe)

External steps that precede and follow the format/VTC resolution are
inputs: the display-bridge lookup result, the `bus-format` property, the
`xlnx,bridge` phandle, the registry state seen by `xlnx_of_find_vtc`, and
the DRM-init result. -/

structure TpgProbeEnv where
  /-- Result of `devm_drm_of_get_bridge` (ok or negative errno). -/
  bridge_ret : Except Int Unit
  /-- `bus-format` device-tree property, `none` when undefined. -/
  bus_format_prop : Option Nat
  /-- `xlnx,bridge` phandle, `none` when the node is missing. -/
  vtc_node : Option Nat
  /-- VTC registry state at probe time. -/
  registry : XlnxVtcList
  /-- Result of `xlnx_tpg_drm_init` (0 or negative errno). -/
  drm_init_ret : Int
deriving Repr

/-- Probe-time fields of `struct xlnx_tpg` relevant to the claims. -/
structure TpgDev where
  output_bus_format : Nat
  color_format : XlnxTpgFormat
  vtc : Option XlnxVtcIface
deriving DecidableEq, Repr

/-- `xlnx_tpg_probe`, source order: bridge lookup, `bus-format` property
read (-EINVAL when undefined), color-format derivation (its result is
stored without any validity check), `xlnx,bridge` phandle (-EINVAL when
missing), `xlnx_of_find_vtc` (negative result propagated), DRM init. -/
def xlnx_tpg_probe (env : TpgProbeEnv) : Except Int TpgDev :=
  match env.bridge_ret with
  | .error e => .error e
  | .ok _ =>
    match env.bus_format_prop with
    | none => .error (-EINVAL)
    | some bf =>
      let cf := xlnx_tpg_bus_to_color_format bf
      match env.vtc_node with
      | none => .error (-EINVAL)
      | some np =>
        let fr := xlnx_of_find_vtc (some np) env.registry
        if fr.1 < 0 then .error fr.1
        else if env.drm_init_ret < 0 then .error env.drm_init_ret
        else .ok { output_bus_format := bf, color_format := cf, vtc := fr.2 }

/-! ## Interleavings of irq delivery, commits and Disable (C8)

Each lock-protected (or single-threaded commit-path) critical section from
the source is one atomic step; `resolved` accumulates, in order, every
token handed to `drm_crtc_send_vblank_event` (irq path) or
`complete_all` (Disable path). -/

structure TpgSysState where
  drm_event : Option Nat
  crtc_state_event : Option Nat
  resolved : List Nat
deriving DecidableEq, Repr

inductive TpgStep where
  /-- A commit installs a fresh pending event into `crtc->state->event`. -/
  | newEvent (t : Nat)
  /-- `xlnx_tpg_plane_atomic_update` runs. -/
  | planeUpdate
  /-- The TPG interrupt fires with latched `status`. -/
  | irq (status : Nat)
  /-- `xlnx_tpg_crtc_disable` runs. -/
  | disable
deriving DecidableEq, Repr

/-- One interleaving step, mirroring the corresponding source path. -/
def tpgStepRun (s : TpgSysState) : TpgStep → TpgSysState
  | .newEvent t => { s with crtc_state_event := some t }
  | .planeUpdate =>
    match s.crtc_state_event with
    | some t => { s with drm_event := some t, crtc_state_event := none }
    | none => s
  | .irq status =>
    if status &&& XLNX_TPG_IP_IRQ_AP_DONE = 0 then s
    else
      match s.drm_event with
      | some t => { s with drm_event := none, resolved := s.resolved ++ [t] }
      | none => s
  | .disable =>
    match s.crtc_state_event with
    | some t =>
      { s with crtc_state_event := none, resolved := s.resolved ++ [t] }
    | none => s

/-- Run an interleaving. -/
def tpgSysRun (s : TpgSysState) (steps : List TpgStep) : TpgSysState :=
  steps.foldl tpgStepRun s

/-- Tokens introduced by `newEvent` steps, in order. -/
def tpgNewTokens : List TpgStep → List Nat
  | [] => []
  | .newEvent t :: steps => t :: tpgNewTokens steps
  | .planeUpdate :: steps => tpgNewTokens steps
  | .irq _ :: steps => tpgNewTokens steps
  | .disable :: steps => tpgNewTokens steps

/-- Initial system state: no pending event anywhere, nothing resolved. -/
def tpgSysInit : TpgSysState :=
  { drm_event := none, crtc_state_event := none, resolved := [] }

/-! ## Theorems -/

/-- C5: `xlnx_tpg_bus_to_color_format` is pure and total: the five
supported media-bus formats map to their documented color formats, and
every other input maps to `XTPG_FMT_INVALID`. -/
theorem xlnx_tpg_bus_to_color_format_total (bus : Nat) :
    xlnx_tpg_bus_to_color_format MEDIA_BUS_FMT_RGB666_1X18 =
      .XTPG_FMT_RGB ∧
    xlnx_tpg_bus_to_color_format MEDIA_BUS_FMT_RBG888_1X24 =
      .XTPG_FMT_RGB ∧
    xlnx_tpg_bus_to_color_format MEDIA_BUS_FMT_UYVY8_1X16 =
      .XTPG_FMT_YUV_422 ∧
    xlnx_tpg_bus_to_color_format MEDIA_BUS_FMT_VUY8_1X24 =
      .XTPG_FMT_YUV_444 ∧
    xlnx_tpg_bus_to_color_format MEDIA_BUS_FMT_UYVY10_1X20 =
      .XTPG_FMT_YUV_422 ∧
    (bus ∉ [MEDIA_BUS_FMT_RGB666_1X18, MEDIA_BUS_FMT_RBG888_1X24,
            MEDIA_BUS_FMT_UYVY8_1X16, MEDIA_BUS_FMT_VUY8_1X24,
            MEDIA_BUS_FMT_UYVY10_1X20] →
      xlnx_tpg_bus_to_color_format bus = .XTPG_FMT_INVALID) := by
  refine ⟨by decide, by decide, by decide, by decide, by decide, ?_⟩
  intro h
  simp only [List.mem_cons, List.not_mem_nil, or_false, not_or] at h
  obtain ⟨h1, h2, h3, h4, h5⟩ := h
  simp [xlnx_tpg_bus_to_color_format, format_map, List.find?,
        Ne.symm h1, Ne.symm h2, Ne.symm h3, Ne.symm h4, Ne.symm h5]

/-- C5 witness: a concrete unmapped bus format (0) maps to INVALID. -/
theorem xlnx_tpg_bus_to_color_format_total_witness :
    (0 ∉ [MEDIA_BUS_FMT_RGB666_1X18, MEDIA_BUS_FMT_RBG888_1X24,
          MEDIA_BUS_FMT_UYVY8_1X16, MEDIA_BUS_FMT_VUY8_1X24,
          MEDIA_BUS_FMT_UYVY10_1X20]) ∧
    xlnx_tpg_bus_to_color_format 0 = .XTPG_FMT_INVALID :=
  ⟨by decide, (xlnx_tpg_bus_to_color_format_total 0).2.2.2.2.2 (by decide)⟩

/-- C9: `xlnx_tpg_crtc_select_output_bus_format` returns the generator's
fixed output bus format when it occurs in the candidate list and the
sentinel 0 otherwise; in particular the empty list yields 0. -/
theorem xlnx_tpg_crtc_select_output_bus_format_spec
    (output_bus_format : Nat) (in_bus_fmts : List Nat) :
    xlnx_tpg_crtc_select_output_bus_format output_bus_format in_bus_fmts =
      (if output_bus_format ∈ in_bus_fmts then output_bus_format else 0) ∧
    xlnx_tpg_crtc_select_output_bus_format output_bus_format [] = 0 := by
  refine ⟨?_, rfl⟩
  induction in_bus_fmts with
  | nil => simp [xlnx_tpg_crtc_select_output_bus_format]
  | cons x xs ih =>
    by_cases hx : x = output_bus_format
    · subst hx
      simp [xlnx_tpg_crtc_select_output_bus_format]
    · simp [xlnx_tpg_crtc_select_output_bus_format, hx, ih, Ne.symm hx]

/-- C7: with a timing controller present, Enable emits exactly:
`set_timing(mode)`, `enable`, dimension writes (width, height), the fixed
color-format write, and the CONTROL write of START | AUTO_RESTART. -/
theorem xlnx_tpg_crtc_enable_order (vtc : XlnxVtcIface)
    (mode : DrmDisplayMode) (color_format : XlnxTpgFormat) :
    xlnx_tpg_crtc_enable (some vtc) mode color_format =
      [ TpgEv.vtcSetTiming mode,
        TpgEv.vtcEnable,
        TpgEv.write XLNX_TPG_ACTIVE_WIDTH (mode.hdisplay % 2 ^ 16),
        TpgEv.write XLNX_TPG_ACTIVE_HEIGHT (mode.vdisplay % 2 ^ 16),
        TpgEv.write XLNX_TPG_COLOR_FORMAT color_format.toNat,
        TpgEv.write XLNX_TPG_CONTROL
          (XLNX_TPG_START ||| XLNX_TPG_AUTO_RESTART) ] := by
  have h16 : ∀ a : Nat, a % 2 ^ 16 % 2 ^ 32 = a % 2 ^ 16 := fun a =>
    Nat.mod_eq_of_lt (lt_trans (Nat.mod_lt a (by norm_num)) (by norm_num))
  have hcf : color_format.toNat % 2 ^ 32 = color_format.toNat :=
    Nat.mod_eq_of_lt (by cases color_format <;> decide)
  have hctl : (XLNX_TPG_START ||| XLNX_TPG_AUTO_RESTART) % 2 ^ 32 =
      XLNX_TPG_START ||| XLNX_TPG_AUTO_RESTART := by decide
  simp [xlnx_tpg_crtc_enable, xlnx_tpg_set_dimensions, xlnx_tpg_set_format,
        xlnx_tpg_start, xlnx_tpg_write, h16, hcf, hctl]
  exact ⟨by omega, by omega, by cases color_format <;> decide, by decide⟩

/-- C10: whenever `xlnx_of_find_vtc` returns a nonzero (failure) code,
the output handle is NULL — a failed lookup never leaves a stale handle
in the output parameter. -/
theorem xlnx_of_find_vtc_failure_clears_output (np : Option Nat)
    (s : XlnxVtcList) (h : (xlnx_of_find_vtc np s).1 ≠ 0) :
    (xlnx_of_find_vtc np s).2 = none := by
  by_cases hi : (!s.inited) = true
  · simp [xlnx_of_find_vtc, hi]
  · cases hf : s.entries.find? (fun v => v.of_node = np) with
    | some v =>
      exact absurd (by simp [xlnx_of_find_vtc, hi, hf]) h
    | none => simp [xlnx_of_find_vtc, hi, hf]

/-- C10 witness: lookup on the uninitialized registry fails and returns a
NULL handle. -/
theorem xlnx_of_find_vtc_failure_clears_output_witness :
    (xlnx_of_find_vtc (some 3) vtcListUninit).1 ≠ 0 ∧
    (xlnx_of_find_vtc (some 3) vtcListUninit).2 = none :=
  ⟨by decide,
   xlnx_of_find_vtc_failure_clears_output (some 3) vtcListUninit (by decide)⟩

/-- C4: a proposed configuration that enables the CRTC with an output bus
format different from the fixed probe-time one is rejected: the driver
state is returned unchanged, no MMIO write happens, and (when the
framework primary-plane check passes) the returned code is -EINVAL, the
code the spec calls Unsupported. -/
theorem xlnx_tpg_crtc_check_rejects_mismatch (tpg_output_bus_format : Nat)
    (s : TpgDrmState) (crtc_output_bus_format : Nat)
    (primary_plane_ret add_planes_ret : Int)
    (hne : tpg_output_bus_format ≠ crtc_output_bus_format) :
    (xlnx_tpg_crtc_check tpg_output_bus_format s true crtc_output_bus_format
        primary_plane_ret add_planes_ret).2.1 = s ∧
    (xlnx_tpg_crtc_check tpg_output_bus_format s true crtc_output_bus_format
        primary_plane_ret add_planes_ret).2.2 = [] ∧
    (primary_plane_ret = 0 →
      xlnx_tpg_crtc_check tpg_output_bus_format s true crtc_output_bus_format
        primary_plane_ret add_planes_ret = (-EINVAL, s, [])) := by
  by_cases hp : primary_plane_ret = 0
  · subst hp
    simp [xlnx_tpg_crtc_check, hne]
  · simp [xlnx_tpg_crtc_check, hne, hp]

/-- C4 witness: concrete mismatching enable-commit is rejected with
-EINVAL, state untouched, no writes. -/
theorem xlnx_tpg_crtc_check_rejects_mismatch_witness :
    MEDIA_BUS_FMT_UYVY8_1X16 ≠ MEDIA_BUS_FMT_RGB666_1X18 ∧
    xlnx_tpg_crtc_check MEDIA_BUS_FMT_UYVY8_1X16
        { drm_event := none, crtc_state_event := none } true
        MEDIA_BUS_FMT_RGB666_1X18 0 0 =
      (-EINVAL, { drm_event := none, crtc_state_event := none }, []) :=
  ⟨by decide,
   (xlnx_tpg_crtc_check_rejects_mismatch MEDIA_BUS_FMT_UYVY8_1X16
      { drm_event := none, crtc_state_event := none }
      MEDIA_BUS_FMT_RGB666_1X18 0 0 (by decide)).2.2 rfl⟩

/-- A probe environment whose `bus-format` property (0) is not in the
supported table, with every external step succeeding: display bridge
found, `xlnx,bridge` phandle present, the referenced VTC registered, DRM
init successful. -/
def tpgProbeEnvUnmapped : TpgProbeEnv :=
  { bridge_ret := .ok (),
    bus_format_prop := some 0,
    vtc_node := some 1,
    registry := (xlnx_vtc_register (some ⟨10, some 1⟩) vtcListInit).2,
    drm_init_ret := 0 }

/-- C1: the code, not the claim, is at fault.  With an output bus format
that maps to `XTPG_FMT_INVALID`, `xlnx_tpg_probe` performs no check on
the derived color format and returns success, storing
`XTPG_FMT_INVALID`; a subsequent Enable then programs the Invalid value
(4) straight into the COLOR_FORMAT register.  The claimed probe failure
does not happen anywhere in the code. -/
theorem xlnx_tpg_probe_accepts_invalid_format :
    xlnx_tpg_bus_to_color_format 0 = .XTPG_FMT_INVALID ∧
    xlnx_tpg_probe tpgProbeEnvUnmapped =
      .ok { output_bus_format := 0, color_format := .XTPG_FMT_INVALID,
            vtc := some ⟨10, some 1⟩ } ∧
    TpgEv.write XLNX_TPG_COLOR_FORMAT
        (XlnxTpgFormat.XTPG_FMT_INVALID).toNat ∈
      xlnx_tpg_crtc_enable (some ⟨10, some 1⟩) ⟨1920, 1080⟩
        .XTPG_FMT_INVALID :=
  ⟨by decide, by rfl, by decide⟩

/-- Driver event state right after a plane atomic update armed token 7
into the pending slot `tpg->drm->event`. -/
def tpgArmedState : TpgDrmState :=
  (xlnx_tpg_plane_atomic_update
    { drm_event := none, crtc_state_event := some 7 }).1

/-- C2 counterexample: with token 7 outstanding in the pending slot
(armed by the plane atomic-update path) and no commit event, Disable
neither completes nor sends token 7 and leaves the pending slot set, so
the claim that Disable resolves and clears the pending token is false. -/
theorem xlnx_tpg_crtc_disable_leaves_pending_slot :
    tpgArmedState.drm_event = some 7 ∧
    (xlnx_tpg_crtc_disable none tpgArmedState).1.drm_event = some 7 ∧
    TpgEv.completeAll 7 ∉ (xlnx_tpg_crtc_disable none tpgArmedState).2 ∧
    TpgEv.sendEvent 7 ∉ (xlnx_tpg_crtc_disable none tpgArmedState).2 := by
  decide

/-- C2 amended: Disable synchronously completes the token held in the
commit state's `crtc->state->event` (if any) and clears that slot before
returning; the driver's pending slot `tpg->drm->event` is left unchanged
for the interrupt handler. -/
theorem xlnx_tpg_crtc_disable_completes_commit_event
    (vtc : Option XlnxVtcIface) (s : TpgDrmState) :
    (xlnx_tpg_crtc_disable vtc s).1.crtc_state_event = none ∧
    (xlnx_tpg_crtc_disable vtc s).1.drm_event = s.drm_event ∧
    (∀ t, s.crtc_state_event = some t →
      TpgEv.completeAll t ∈ (xlnx_tpg_crtc_disable vtc s).2) := by
  cases hc : s.crtc_state_event with
  | some t => cases vtc <;> simp [xlnx_tpg_crtc_disable, hc]
  | none => cases vtc <;> simp [xlnx_tpg_crtc_disable, hc]

/-- C2 amended witness: a concrete Disable with commit event 5 pending
emits `complete_all` for token 5. -/
theorem xlnx_tpg_crtc_disable_completes_commit_event_witness :
    TpgEv.completeAll 5 ∈
      (xlnx_tpg_crtc_disable none
        { drm_event := none, crtc_state_event := some 5 }).2 :=
  (xlnx_tpg_crtc_disable_completes_commit_event none
    { drm_event := none, crtc_state_event := some 5 }).2.2 5 rfl

/-- If a predicate matches nothing in `l₁`, searching `l₁ ++ l₂` is
searching `l₂`. -/
theorem find?_append_of_none {α : Type} (p : α → Bool) (l₁ l₂ : List α)
    (h : l₁.find? p = none) : (l₁ ++ l₂).find? p = l₂.find? p := by
  induction l₁ with
  | nil => rfl
  | cons x xs ih =>
    cases hx : p x with
    | true => simp [List.find?_cons, hx] at h
    | false =>
      rw [List.find?_cons, hx] at h
      simpa [List.find?_cons, hx] using ih h

/-- C6: `xlnx_vtc_register` returns -EINVAL on a NULL handle or a NULL
identifier, -EFAULT (the spec's NotReady) on an uninitialized registry,
and otherwise appends the handle and returns 0; the handle is then found
by `xlnx_of_find_vtc` on its identifier (given no earlier entry shadows
it, the registry's distinct-identifier invariant). -/
theorem xlnx_vtc_register_spec (s : XlnxVtcList) (v : XlnxVtcIface) :
    (xlnx_vtc_register none s = (-EINVAL, s)) ∧
    (v.of_node = none → xlnx_vtc_register (some v) s = (-EINVAL, s)) ∧
    (v.of_node ≠ none → s.inited = false →
      xlnx_vtc_register (some v) s = (-EFAULT, s)) ∧
    (v.of_node ≠ none → s.inited = true →
      xlnx_vtc_register (some v) s =
        (0, { s with entries := s.entries ++ [v] }) ∧
      ((∀ u ∈ s.entries, u.of_node ≠ v.of_node) →
        xlnx_of_find_vtc v.of_node (xlnx_vtc_register (some v) s).2 =
          (0, some v))) := by
  refine ⟨rfl, ?_, ?_, ?_⟩
  · intro hv
    simp [xlnx_vtc_register, hv]
  · intro hv hi
    simp [xlnx_vtc_register, hv, hi]
  · intro hv hi
    have hreg : xlnx_vtc_register (some v) s =
        (0, { s with entries := s.entries ++ [v] }) := by
      simp [xlnx_vtc_register, hv, hi]
    refine ⟨hreg, fun hno => ?_⟩
    rw [hreg]
    have hnone : s.entries.find? (fun u => u.of_node = v.of_node) = none := by
      rw [List.find?_eq_none]
      intro u hu
      simpa using hno u hu
    have : (s.entries ++ [v]).find? (fun u => u.of_node = v.of_node) =
        some v := by
      rw [find?_append_of_none _ _ _ hnone]
      simp [List.find?_cons]
    simp [xlnx_of_find_vtc, hi, this]

/-- C6 witness: registering a concrete handle in the freshly initialized
registry succeeds and the handle is immediately visible to find. -/
theorem xlnx_vtc_register_spec_witness :
    xlnx_vtc_register (some ⟨1, some 5⟩) vtcListInit =
      (0, { entries := [⟨1, some 5⟩], inited := true }) ∧
    xlnx_of_find_vtc (some 5)
        (xlnx_vtc_register (some ⟨1, some 5⟩) vtcListInit).2 =
      (0, some ⟨1, some 5⟩) := by
  have h := (xlnx_vtc_register_spec vtcListInit ⟨1, some 5⟩).2.2.2
    (by decide) rfl
  exact ⟨h.1, h.2 (by decide)⟩

/-- Pairwise-distinct identifiers within a handle list. -/
def DistinctIds (l : List XlnxVtcIface) : Prop :=
  l.Pairwise (fun a b => a.of_node ≠ b.of_node)

theorem DistinctIds.nodup {l : List XlnxVtcIface} (h : DistinctIds l) :
    l.Nodup :=
  h.imp fun hne heq => hne (by rw [heq])

/-- Simulation: the registry state `s` realizes the specification-side
registered set `R`: it is initialized, its entry list has the same
members as `R`, and identifiers are pairwise distinct on both sides. -/
def RegSim (R : List XlnxVtcIface) (s : XlnxVtcList) : Prop :=
  s.inited = true ∧ (∀ v, v ∈ s.entries ↔ v ∈ R) ∧
    DistinctIds s.entries ∧ DistinctIds R

theorem regSim_run : ∀ (ops : List RegOp) (R : List XlnxVtcIface)
    (s : XlnxVtcList), RegSim R s → wfRegOps R ops = true →
    RegSim (specReg R ops) (runRegOps s ops) := by
  intro ops
  induction ops with
  | nil => exact fun R s hsim _ => hsim
  | cons op ops ih =>
    intro R s hsim hwf
    obtain ⟨hi, hmem, hde, hdr⟩ := hsim
    cases op with
    | reg v =>
      rw [wfRegOps, Bool.and_eq_true, Bool.and_eq_true] at hwf
      obtain ⟨⟨hv, hall⟩, hwf'⟩ := hwf
      have hv' : v.of_node ≠ none := by simpa using hv
      have hall' : ∀ u ∈ R, u.of_node ≠ v.of_node := by
        intro u hu
        simpa using List.all_eq_true.mp hall u hu
      have hstep : runRegOp s (.reg v) =
          { s with entries := s.entries ++ [v] } := by
        simp [runRegOp, xlnx_vtc_register, hv', hi]
      have hsim' : RegSim (v :: R) { s with entries := s.entries ++ [v] } := by
        refine ⟨hi, ?_, ?_, ?_⟩
        · intro u
          simp only [List.mem_append, List.mem_singleton, List.mem_cons,
            hmem u]
          tauto
        · refine List.pairwise_append.mpr ⟨hde, List.pairwise_singleton _ _,
            ?_⟩
          intro a ha b hb
          rw [List.mem_singleton] at hb
          subst hb
          exact hall' a ((hmem a).mp ha)
        · exact List.pairwise_cons.mpr
            ⟨fun b hb => (hall' b hb).symm, hdr⟩
      rw [specReg, runRegOps, List.foldl_cons, hstep]
      exact ih (v :: R) _ hsim' hwf'
    | unreg v =>
      rw [wfRegOps] at hwf
      have hstep : runRegOp s (.unreg v) =
          { s with entries := s.entries.erase v } := by
        simp [runRegOp, xlnx_vtc_unregister, hi]
      have hsim' : RegSim (R.erase v)
          { s with entries := s.entries.erase v } := by
        refine ⟨hi, ?_, ?_, ?_⟩
        · intro u
          rw [hde.nodup.mem_erase_iff, hdr.nodup.mem_erase_iff, hmem u]
        · exact hde.sublist (s.entries.erase_sublist v)
        · exact hdr.sublist (R.erase_sublist v)
      rw [specReg, runRegOps, List.foldl_cons, hstep]
      exact ih (R.erase v) _ hsim' hwf

/-- In a list with pairwise-distinct identifiers, the scan finds exactly
the member carrying the sought identifier. -/
theorem find?_of_distinct_mem (l : List XlnxVtcIface) (np : Nat)
    (v : XlnxVtcIface) (hd : DistinctIds l) (hm : v ∈ l)
    (hv : v.of_node = some np) :
    l.find? (fun u => u.of_node = some np) = some v := by
  induction l with
  | nil => cases hm
  | cons x xs ih =>
    rcases List.mem_cons.mp hm with rfl | hm'
    · exact List.find?_cons_of_pos _ (by simpa using hv)
    · have hxv : x.of_node ≠ v.of_node :=
        (List.pairwise_cons.mp hd).1 v hm'
      have hx : ¬(x.of_node = some np) := fun hcontra =>
        hxv (hcontra.trans hv.symm)
      rw [List.find?_cons_of_neg _ (by simpa using hx)]
      exact ih (List.pairwise_cons.mp hd).2 hm'

theorem find_vtc_of_sim {R : List XlnxVtcIface} {s : XlnxVtcList}
    (hsim : RegSim R s) (np : Nat) (v : XlnxVtcIface) :
    xlnx_of_find_vtc (some np) s = (0, some v) ↔
      v ∈ R ∧ v.of_node = some np := by
  obtain ⟨hi, hmem, hde, _⟩ := hsim
  constructor
  · intro h
    cases hf : s.entries.find? (fun u => u.of_node = some np) with
    | none =>
      rw [xlnx_of_find_vtc, hi] at h
      simp only [Bool.not_true, Bool.false_eq_true, if_false, hf,
        Prod.mk.injEq] at h
      exact absurd h.2 (by simp)
    | some u =>
      rw [xlnx_of_find_vtc, hi] at h
      simp only [Bool.not_true, Bool.false_eq_true, if_false, hf,
        Prod.mk.injEq, Option.some.injEq] at h
      obtain ⟨-, rfl⟩ := h
      exact ⟨(hmem u).mp (List.mem_of_find?_eq_some hf),
             by simpa using List.find?_some hf⟩
  · rintro ⟨hmR, hvnp⟩
    have : s.entries.find? (fun u => u.of_node = some np) = some v :=
      find?_of_distinct_mem _ np v hde ((hmem v).mpr hmR) hvnp
    simp [xlnx_of_find_vtc, hi, this]

theorem find_vtc_defer_of_sim {R : List XlnxVtcIface} {s : XlnxVtcList}
    (hsim : RegSim R s) (np : Nat)
    (h : ∀ v ∈ R, v.of_node ≠ some np) :
    xlnx_of_find_vtc (some np) s = (-EPROBE_DEFER, none) := by
  obtain ⟨hi, hmem, -, -⟩ := hsim
  have hf : s.entries.find? (fun u => u.of_node = some np) = none := by
    rw [List.find?_eq_none]
    intro u hu
    simpa using h u ((hmem u).mp hu)
  simp [xlnx_of_find_vtc, hi, hf]

/-- C3: for every well-formed sequence of register/unregister operations
on handles with distinct identifiers run from the initialized empty
registry, `xlnx_of_find_vtc` succeeds exactly on the currently-registered
handle of the sought identifier (per the specification-side registered
set), returns -EPROBE_DEFER whenever no currently-registered handle
carries that identifier, and returns -EPROBE_DEFER on any uninitialized
registry. -/
theorem xlnx_of_find_vtc_registry_correct (ops : List RegOp) (np : Nat)
    (hwf : wfRegOps [] ops = true) :
    (∀ v, xlnx_of_find_vtc (some np) (runRegOps vtcListInit ops) =
        (0, some v) ↔ v ∈ specReg [] ops ∧ v.of_node = some np) ∧
    ((∀ v ∈ specReg [] ops, v.of_node ≠ some np) →
      xlnx_of_find_vtc (some np) (runRegOps vtcListInit ops) =
        (-EPROBE_DEFER, none)) ∧
    (∀ s : XlnxVtcList, s.inited = false →
      xlnx_of_find_vtc (some np) s = (-EPROBE_DEFER, none)) := by
  have hsim : RegSim (specReg [] ops) (runRegOps vtcListInit ops) :=
    regSim_run ops [] vtcListInit
      ⟨rfl, by simp [vtcListInit], List.Pairwise.nil, List.Pairwise.nil⟩ hwf
  exact ⟨fun v => find_vtc_of_sim hsim np v,
         find_vtc_defer_of_sim hsim np,
         fun s hs => by simp [xlnx_of_find_vtc, hs]⟩

/-- A concrete operation sequence: register A (node 10), register B
(node 20), unregister A. -/
def regOpsExample : List RegOp :=
  [ .reg ⟨1, some 10⟩, .reg ⟨2, some 20⟩, .unreg ⟨1, some 10⟩ ]

/-- C3 witness: after the example sequence, find(10) defers (already
unregistered) and find(20) returns exactly handle B; and find on the
uninitialized registry defers. -/
theorem xlnx_of_find_vtc_registry_correct_witness :
    wfRegOps [] regOpsExample = true ∧
    xlnx_of_find_vtc (some 10) (runRegOps vtcListInit regOpsExample) =
      (-EPROBE_DEFER, none) ∧
    xlnx_of_find_vtc (some 20) (runRegOps vtcListInit regOpsExample) =
      (0, some ⟨2, some 20⟩) ∧
    xlnx_of_find_vtc (some 20) vtcListUninit = (-EPROBE_DEFER, none) :=
  ⟨by decide,
   (xlnx_of_find_vtc_registry_correct regOpsExample 10 (by decide)).2.1
     (by decide),
   ((xlnx_of_find_vtc_registry_correct regOpsExample 20 (by decide)).1
     ⟨2, some 20⟩).mpr (by decide),
   (xlnx_of_find_vtc_registry_correct regOpsExample 20 (by decide)).2.2
     vtcListUninit rfl⟩

/-- Inductive invariant for the interleaving system: resolved tokens are
pairwise distinct, tokens held in either event slot are unresolved and
not reused by future commits, the two slots never hold the same token,
and future commit tokens are fresh. -/
def TpgSysInv (s : TpgSysState) (rest : List TpgStep) : Prop :=
  s.resolved.Nodup ∧
  (∀ t, s.drm_event = some t →
    t ∉ s.resolved ∧ t ∉ tpgNewTokens rest) ∧
  (∀ t, s.crtc_state_event = some t →
    t ∉ s.resolved ∧ t ∉ tpgNewTokens rest) ∧
  (∀ t u, s.drm_event = some t → s.crtc_state_event = some u → t ≠ u) ∧
  (tpgNewTokens rest).Nodup ∧
  (∀ t ∈ tpgNewTokens rest, t ∉ s.resolved)

theorem tpgSysInv_run : ∀ (steps : List TpgStep) (s : TpgSysState),
    TpgSysInv s steps → (tpgSysRun s steps).resolved.Nodup := by
  intro steps
  induction steps with
  | nil => exact fun s hinv => hinv.1
  | cons step steps ih =>
    intro s hinv
    obtain ⟨hnd, hdrm, hcrtc, hdis, hfresh, hdisj⟩ := hinv
    rw [tpgSysRun, List.foldl_cons]
    apply ih
    cases step with
    | newEvent t =>
      have ht_res : t ∉ s.resolved :=
        hdisj t (List.mem_cons_self t (tpgNewTokens steps))
      have ht_rest : t ∉ tpgNewTokens steps :=
        (List.nodup_cons.mp hfresh).1
      have hstep : tpgStepRun s (.newEvent t) =
          { s with crtc_state_event := some t } := rfl
      rw [hstep]
      refine ⟨hnd, ?_, ?_, ?_, (List.nodup_cons.mp hfresh).2, ?_⟩
      · intro u hu
        obtain ⟨h1, h2⟩ := hdrm u hu
        exact ⟨h1, fun hc => h2 (List.mem_cons_of_mem _ hc)⟩
      · intro u hu
        obtain rfl : t = u := Option.some.inj hu
        exact ⟨ht_res, ht_rest⟩
      · intro a b ha hb
        obtain rfl : t = b := Option.some.inj hb
        intro hab
        subst hab
        exact (hdrm a ha).2 (List.mem_cons_self a (tpgNewTokens steps))
      · intro u hu
        exact hdisj u (List.mem_cons_of_mem _ hu)
    | planeUpdate =>
      cases hc : s.crtc_state_event with
      | some t =>
        have hstep : tpgStepRun s .planeUpdate =
            { s with drm_event := some t, crtc_state_event := none } := by
          simp only [tpgStepRun, hc]
        rw [hstep]
        refine ⟨hnd, ?_, ?_, ?_, hfresh, hdisj⟩
        · intro u hu
          obtain rfl : t = u := Option.some.inj hu
          exact hcrtc t hc
        · exact fun u hu => Option.noConfusion hu
        · exact fun a b ha hb => Option.noConfusion hb
      | none =>
        have hstep : tpgStepRun s .planeUpdate = s := by
          simp only [tpgStepRun, hc]
        rw [hstep]
        exact ⟨hnd, hdrm, hcrtc, hdis, hfresh, hdisj⟩
    | irq status =>
      by_cases hbit : status &&& XLNX_TPG_IP_IRQ_AP_DONE = 0
      · have hstep : tpgStepRun s (.irq status) = s := by
          simp only [tpgStepRun, hbit, if_pos]
        rw [hstep]
        exact ⟨hnd, hdrm, hcrtc, hdis, hfresh, hdisj⟩
      · cases hd : s.drm_event with
        | some t =>
          obtain ⟨ht_res, ht_rest⟩ := hdrm t hd
          have hstep : tpgStepRun s (.irq status) =
              { s with drm_event := none,
                       resolved := s.resolved ++ [t] } := by
            simp only [tpgStepRun, hbit, if_neg, hd, not_false_eq_true]
          rw [hstep]
          refine ⟨?_, ?_, ?_, ?_, hfresh, ?_⟩
          · rw [List.nodup_append]
            exact ⟨hnd, List.nodup_singleton t,
              fun a ha hb => ht_res ((List.mem_singleton.mp hb) ▸ ha)⟩
          · exact fun u hu => Option.noConfusion hu
          · intro u hu
            obtain ⟨h1, h2⟩ := hcrtc u hu
            refine ⟨?_, h2⟩
            rw [List.mem_append, List.mem_singleton]
            rintro (hcc | rfl)
            · exact h1 hcc
            · exact hdis u u hd hu rfl
          · exact fun a b ha hb => Option.noConfusion ha
          · intro u hu
            have hne : u ≠ t := fun he => ht_rest (he ▸ hu)
            rw [List.mem_append, List.mem_singleton]
            rintro (hcc | rfl)
            · exact hdisj u hu hcc
            · exact hne rfl
        | none =>
          have hstep : tpgStepRun s (.irq status) = s := by
            simp only [tpgStepRun, hbit, if_neg, hd, not_false_eq_true]
          rw [hstep]
          exact ⟨hnd, hdrm, hcrtc, hdis, hfresh, hdisj⟩
    | disable =>
      cases hc : s.crtc_state_event with
      | some t =>
        obtain ⟨ht_res, ht_rest⟩ := hcrtc t hc
        have hstep : tpgStepRun s .disable =
            { s with crtc_state_event := none,
                     resolved := s.resolved ++ [t] } := by
          simp only [tpgStepRun, hc]
        rw [hstep]
        refine ⟨?_, ?_, ?_, ?_, hfresh, ?_⟩
        · rw [List.nodup_append]
          exact ⟨hnd, List.nodup_singleton t,
            fun a ha hb => ht_res ((List.mem_singleton.mp hb) ▸ ha)⟩
        · intro u hu
          obtain ⟨h1, h2⟩ := hdrm u hu
          refine ⟨?_, h2⟩
          rw [List.mem_append, List.mem_singleton]
          rintro (hcc | rfl)
          · exact h1 hcc
          · exact hdis u u hu hc rfl
        · exact fun u hu => Option.noConfusion hu
        · exact fun a b ha hb => Option.noConfusion hb
        · intro u hu
          have hne : u ≠ t := fun he => ht_rest (he ▸ hu)
          rw [List.mem_append, List.mem_singleton]
          rintro (hcc | rfl)
          · exact hdisj u hu hcc
          · exact hne rfl
      | none =>
        have hstep : tpgStepRun s .disable = s := by
          simp only [tpgStepRun, hc]
        rw [hstep]
        exact ⟨hnd, hdrm, hcrtc, hdis, hfresh, hdisj⟩

/-- C8: in every interleaving of commit, plane-update, interrupt and
Disable steps whose commit events carry pairwise-distinct tokens, the
list of resolved tokens (sent by the irq handler's atomic
read-clear-dispatch of the pending slot, or completed by Disable) has no
duplicate: no execution delivers the same token twice. -/
theorem tpg_token_resolved_at_most_once (steps : List TpgStep)
    (hfresh : (tpgNewTokens steps).Nodup) :
    ((tpgSysRun tpgSysInit steps).resolved).Nodup := by
  apply tpgSysInv_run steps tpgSysInit
  refine ⟨List.nodup_nil, ?_, ?_, ?_, hfresh, ?_⟩ <;>
    simp [tpgSysInit]

/-- C8 witness: a concrete interleaving — arm token 3, two frame-done
interrupts, then Disable — resolves token 3 exactly once. -/
theorem tpg_token_resolved_at_most_once_witness :
    (tpgNewTokens [TpgStep.newEvent 3, TpgStep.planeUpdate,
      TpgStep.irq 1, TpgStep.irq 1, TpgStep.disable]).Nodup ∧
    ((tpgSysRun tpgSysInit [TpgStep.newEvent 3, TpgStep.planeUpdate,
      TpgStep.irq 1, TpgStep.irq 1, TpgStep.disable]).resolved).Nodup :=
  ⟨by decide,
   tpg_token_resolved_at_most_once
     [TpgStep.newEvent 3, TpgStep.planeUpdate, TpgStep.irq 1,
      TpgStep.irq 1, TpgStep.disable] (by decide)⟩
